import Mathlib

/-!
Shallow embedding of the transactional core of the inventory-system-demo
repository: the sale-creation transaction (`POST /api/sales`), the return
creation and approval/rejection state machine (`POST /api/returns`,
`PUT /api/returns/:id`) and the retry logic of the database wrapper
(`database.js`, `_retryOperation`).

Modelling conventions:
- JS numbers are modelled as `Rat` (exact arithmetic); row ids generated by
  the database sequence are `Nat`; client-supplied ids are `Int`.
- A possibly-absent (`undefined`/`null`) field is an `Option`; JS truthiness
  tests (`x || y`, `if (x)`) are modelled by explicit helpers below
  (`0`, `""`, `null` and `undefined` are falsy).
- A database table is a `List` of row structures; `SELECT ... WHERE` with a
  single row result is `List.find?`, `UPDATE ... WHERE` is `List.map` with a
  conditional rewrite, `DELETE ... WHERE` is `List.filter`.
- `db.transaction(fn)` commits the state produced by `fn` on success and
  rolls back (keeps the pre-call state) when `fn` throws; operations return
  `Except e r × DBState` accordingly.
- Columns the core never reads or writes are omitted from row structures.
-/

/-- JS truthiness of a possibly-absent integer (`0`, `null`, `undefined` are falsy). -/
def jsIntTruthy : Option Int → Bool
  | some v => v != 0
  | none => false

/-- JS `x || d` for a possibly-absent number (`0` is falsy). -/
def jsRatOr (o : Option Rat) (d : Rat) : Rat :=
  match o with
  | some v => if v == 0 then d else v
  | none => d

/-- JS `x || d` for a possibly-absent string (`""` is falsy). -/
def jsStrOr (o : Option String) (d : String) : String :=
  match o with
  | some v => if v == "" then d else v
  | none => d

/-- JS `x || null` for a possibly-absent string, as used when persisting
the actor/date/reason fields of a return. -/
def jsStrOrNull (o : Option String) : Option String :=
  match o with
  | some v => if v == "" then none else some v
  | none => none

/-- `Number.parseFloat(x.toFixed(2))`: round to two decimal places. -/
def round2 (x : Rat) : Rat := (round (x * 100) : Int) / 100

/-- `String.prototype.padStart(n, c)`. -/
def padStart (s : String) (n : Nat) (c : Char) : String :=
  String.mk (List.replicate (n - s.length) c) ++ s

/-- Invoice number derived from the sale row id: `TRN-` + id zero-padded to 5 digits. -/
def invoiceNumberOf (id : Nat) : String :=
  "TRN-" ++ padStart (toString id) 5 '0'

/-- A row of the `inventory` table (columns the core reads or writes). -/
structure InventoryItem where
  id : Int
  sku : String
  name : String
  category : String
  quantity : Rat
  cost_price : Rat
  price : Rat
  deriving Repr, DecidableEq

/-- A sale line item as submitted by the client and as stored (JSON) in
`sales.items`. The processing loop of `POST /api/sales` adds/overwrites
`systemPrice`, `actualPrice`, `discount` and `costPrice` on processed lines. -/
structure SaleItem where
  itemId : Option Int := none
  id : Option Int := none
  sku : String := ""
  name : String := ""
  quantity : Rat := 0
  price : Rat := 0
  actualPrice : Option Rat := none
  systemPrice : Option Rat := none
  discount : Option Rat := none
  costPrice : Option Rat := none
  deriving Repr, DecidableEq

/-- A row of the `sales` table. -/
structure SaleRow where
  id : Nat
  invoice_number : String
  date : String
  customer_id : Option Int
  customer_name : Option String
  seller_id : Option Int
  seller_name : Option String
  items : List SaleItem
  total : Rat
  total_cost : Rat
  total_discount : Rat
  profit : Rat
  payment_method : String
  status : String
  deriving Repr, DecidableEq

/-- An item snapshot inside a return request / `returns.items`. -/
structure RetItemSnap where
  sku : String := ""
  name : String := ""
  category : Option String := none
  quantity : Rat := 0
  price : Option Rat := none
  original_price : Option Rat := none
  deriving Repr, DecidableEq

/-- A row of the `returns` table. -/
structure ReturnRow where
  id : Nat
  invoice_number : String
  invoice_id : Int
  date : String
  customer_name : String
  customer_id : Int
  amount : Rat
  reason : String
  status : String
  items : List RetItemSnap
  approved_by : Option String := none
  approved_date : Option String := none
  rejected_by : Option String := none
  rejected_date : Option String := none
  rejection_reason : Option String := none
  deriving Repr, DecidableEq

/-- A row of the `returned_items` table. -/
structure ReturnedItemRow where
  return_id : Nat
  sku : String
  name : String
  category : String
  quantity : Rat
  original_price : Rat
  condition : String
  return_date : String
  customer_name : String
  return_reason : String
  deriving Repr, DecidableEq

/-- A row of the `customers` table (columns the core reads or writes). -/
structure Customer where
  id : Int
  name : String
  lifetime_value : Rat
  deriving Repr, DecidableEq

/-- The database state touched by the transactional core.  `nextSaleId` and
`nextReturnId` model the serial primary-key sequences (`lastval()`). -/
structure DBState where
  inventory : List InventoryItem
  sales : List SaleRow
  returns : List ReturnRow
  returned_items : List ReturnedItemRow
  customers : List Customer
  nextSaleId : Nat
  nextReturnId : Nat
  deriving Repr, DecidableEq

/-- Errors thrown inside the `POST /api/sales` transaction body. -/
inductive SaleError where
  | itemNotFound (itemId : Int)
  | insufficientStock (name : String) (available requested : Rat)
  deriving Repr, DecidableEq

/-- The id a sale line is processed under: JS `item.itemId || item.id`,
guarded by `if (item.itemId || item.id)`; `none` when that guard is falsy
and the line is skipped. -/
def effItemId (it : SaleItem) : Option Int :=
  let e := if jsIntTruthy it.itemId then it.itemId else it.id
  if jsIntTruthy e then e else none

/-- The `for (const item of parsedItems)` loop of the `POST /api/sales`
transaction: accumulates `totalCost` and `totalDiscount`, decrements
inventory per processed line, enriches processed lines in place, throws on a
missing item or insufficient stock.  Returns the updated inventory, the two
accumulators and the item list as it will be serialized into the sale row. -/
def processSaleItems (inv : List InventoryItem) (totalCost totalDiscount : Rat) :
    List SaleItem → Except SaleError (List InventoryItem × Rat × Rat × List SaleItem)
  | [] => .ok (inv, totalCost, totalDiscount, [])
  | it :: rest =>
    match effItemId it with
    | none =>
      -- guard `if (item.itemId || item.id)` is falsy: line skipped, stored as-is
      match processSaleItems inv totalCost totalDiscount rest with
      | .error e => .error e
      | .ok (inv', tc, td, out) => .ok (inv', tc, td, it :: out)
    | some itemId =>
      match inv.find? (fun r => r.id == itemId) with
      | none => .error (.itemNotFound itemId)
      | some inventoryItem =>
        if inventoryItem.quantity < it.quantity then
          .error (.insufficientStock inventoryItem.name inventoryItem.quantity it.quantity)
        else
          -- `inventoryItem.cost_price || 0` is the identity on a non-null numeric column
          let itemCost := inventoryItem.cost_price * it.quantity
          let actualPrice := match it.actualPrice with
            | some p => p        -- `item.actualPrice !== undefined`
            | none => it.price
          let systemPrice := inventoryItem.price
          let itemDiscount := (systemPrice - actualPrice) * it.quantity
          let stored : SaleItem :=
            { it with systemPrice := some systemPrice
                      actualPrice := some actualPrice
                      discount := some (round2 itemDiscount)
                      costPrice := some inventoryItem.cost_price }
          let newQuantity := inventoryItem.quantity - it.quantity
          let inv' := inv.map fun r =>
            if r.id == itemId then { r with quantity := newQuantity } else r
          match processSaleItems inv' (totalCost + itemCost) (totalDiscount + itemDiscount) rest with
          | .error e => .error e
          | .ok (inv'', tc, td, out) => .ok (inv'', tc, td, stored :: out)

/-- The request body of `POST /api/sales`. -/
structure SaleRequest where
  date : String := ""
  customer_id : Option Int := none
  customer_name : Option String := none
  seller_id : Option Int := none
  seller_name : Option String := none
  items : List SaleItem := []
  total : Rat := 0
  payment_method : String := ""
  status : String := "completed"
  deriving Repr, DecidableEq

/-- The value returned by a successful `POST /api/sales`. -/
structure SaleResult where
  id : Nat
  invoiceNumber : String
  totalCost : Rat
  totalDiscount : Rat
  profit : Rat
  deriving Repr, DecidableEq

/-- The `POST /api/sales` transaction body: process the lines, insert the
sale row with the `TEMP` invoice number, then rewrite the invoice number
derived from the generated row id. -/
def createSaleTx (s : DBState) (r : SaleRequest) :
    Except SaleError (SaleResult × DBState) :=
  match processSaleItems s.inventory 0 0 r.items with
  | .error e => .error e
  | .ok (inv', totalCost, totalDiscount, storedItems) =>
    let profit := r.total - totalCost
    let saleId := s.nextSaleId
    let row : SaleRow :=
      { id := saleId, invoice_number := "TEMP", date := r.date,
        customer_id := r.customer_id, customer_name := r.customer_name,
        seller_id := r.seller_id, seller_name := r.seller_name,
        items := storedItems, total := r.total, total_cost := totalCost,
        total_discount := totalDiscount, profit := profit,
        payment_method := r.payment_method, status := r.status }
    let invoiceNumber := invoiceNumberOf saleId
    let sales' := (s.sales ++ [row]).map fun sr =>
      if sr.id == saleId then { sr with invoice_number := invoiceNumber } else sr
    .ok ({ id := saleId, invoiceNumber := invoiceNumber,
           totalCost := round2 totalCost, totalDiscount := round2 totalDiscount,
           profit := round2 profit },
         { s with inventory := inv', sales := sales', nextSaleId := saleId + 1 })

/-- `POST /api/sales`: run the transaction body; commit its state on success,
roll back to the pre-call state on any thrown error. -/
def createSaleApp (s : DBState) (r : SaleRequest) :
    Except SaleError SaleResult × DBState :=
  match createSaleTx s r with
  | .ok (res, s') => (.ok res, s')
  | .error e => (.error e, s)

/-- Errors surfaced by the returns endpoints. -/
inductive ReturnError where
  | duplicateReturn (invoiceNumber : String)
  | returnNotFound
  deriving Repr, DecidableEq

/-- The request body of `POST /api/returns` (after express-validator). -/
structure ReturnRequest where
  invoice_number : String
  invoice_id : Int
  date : String
  customer_name : String
  customer_id : Int
  amount : Rat
  reason : String
  status : String := "pending"
  items : List RetItemSnap
  deriving Repr, DecidableEq

/-- `POST /api/returns`: reject when a return already exists for the invoice
number; otherwise insert the Return row and one ReturnedItem row per
submitted item, in one transaction. -/
def createReturnApp (s : DBState) (r : ReturnRequest) :
    Except ReturnError Nat × DBState :=
  match s.returns.find? (fun rr => rr.invoice_number == r.invoice_number) with
  | some _ => (.error (.duplicateReturn r.invoice_number), s)
  | none =>
    let returnId := s.nextReturnId
    let row : ReturnRow :=
      { id := returnId, invoice_number := r.invoice_number,
        invoice_id := r.invoice_id, date := r.date,
        customer_name := r.customer_name, customer_id := r.customer_id,
        amount := r.amount, reason := r.reason, status := r.status,
        items := r.items }
    let rits := r.items.map fun it =>
      { return_id := returnId, sku := it.sku, name := it.name,
        category := jsStrOr it.category "",
        quantity := it.quantity,
        -- `Number.parseFloat(item.price || item.original_price || 0)`
        original_price := jsRatOr it.price (jsRatOr it.original_price 0),
        condition := "returned", return_date := r.date,
        customer_name := r.customer_name,
        return_reason := r.reason : ReturnedItemRow }
    (.ok returnId,
     { s with returns := s.returns ++ [row],
              returned_items := s.returned_items ++ rits,
              nextReturnId := returnId + 1 })

/-- The request body of `PUT /api/returns/:id` plus the path parameter. -/
structure UpdateReturnArgs where
  returnId : Nat
  status : String
  approved_by : Option String := none
  approved_date : Option String := none
  rejected_by : Option String := none
  rejected_date : Option String := none
  rejection_reason : Option String := none
  deriving Repr, DecidableEq

/-- The `returnedCost` loop of return approval: for each returned item, find
the matching original sale line by sku and, when it exists and its
`costPrice` is truthy, add `costPrice * quantity`. -/
def computeReturnedCost (saleItems : List SaleItem) (returnedItems : List RetItemSnap) : Rat :=
  returnedItems.foldl
    (fun acc returnedItem =>
      match saleItems.find? (fun si => si.sku == returnedItem.sku) with
      | some originalItem =>
        match originalItem.costPrice with
        | some cp => if cp != 0 then acc + cp * returnedItem.quantity else acc
        | none => acc
      | none => acc)
    0

/-- Written from the spec, for comparison with `computeReturnedCost`: the sum
over returned items of the matching sale line item's `costPrice` times the
returned quantity (matched by sku; `0` for an item with no match). -/
def returnedCostSpec (saleItems : List SaleItem) (returnedItems : List RetItemSnap) : Rat :=
  (returnedItems.map fun returnedItem =>
    match saleItems.find? (fun si => si.sku == returnedItem.sku) with
    | some originalItem => originalItem.costPrice.getD 0 * returnedItem.quantity
    | none => 0).sum

/-- `PUT /api/returns/:id`: fetch the return (throw when absent); when moving
to `approved` from a different status, mark its returned items approved and,
when the parent sale exists, apply the financial reversal to the sale and the
customer; when moving to `rejected` from a different status, delete its
returned items; finally rewrite the return row's status/actor/date/reason
fields. -/
def updateReturnStatusApp (s : DBState) (a : UpdateReturnArgs) :
    Except ReturnError Unit × DBState :=
  match s.returns.find? (fun rr => rr.id == a.returnId) with
  | none => (.error .returnNotFound, s)
  | some returnRecord =>
    let s1 :=
      if a.status == "approved" && returnRecord.status != "approved" then
        let ritems := s.returned_items.map fun ri =>
          if ri.return_id == a.returnId then { ri with condition := "approved" } else ri
        let sa := { s with returned_items := ritems }
        match sa.sales.find? (fun sr => sr.invoice_number == returnRecord.invoice_number) with
        | some sale =>
          let returnedCost := computeReturnedCost sale.items returnRecord.items
          -- `returnRecord.amount || 0` is the identity on a non-null numeric column
          let newTotal := sale.total - returnRecord.amount
          let newTotalCost := sale.total_cost - returnedCost
          let newProfit := newTotal - newTotalCost
          let sales' := sa.sales.map fun sr =>
            if sr.invoice_number == returnRecord.invoice_number then
              { sr with total := newTotal, total_cost := newTotalCost,
                        profit := newProfit, status := "returned" }
            else sr
          let customers' :=
            if jsIntTruthy sale.customer_id then
              sa.customers.map fun c =>
                if some c.id == sale.customer_id then
                  { c with lifetime_value := c.lifetime_value - returnRecord.amount }
                else c
            else sa.customers
          { sa with sales := sales', customers := customers' }
        | none => sa
      else s
    let s2 :=
      if a.status == "rejected" && returnRecord.status != "rejected" then
        { s1 with returned_items :=
            s1.returned_items.filter fun ri => !(ri.return_id == a.returnId) }
      else s1
    let returns' := s2.returns.map fun rr =>
      if rr.id == a.returnId then
        { rr with status := a.status,
                  approved_by := jsStrOrNull a.approved_by,
                  approved_date := jsStrOrNull a.approved_date,
                  rejected_by := jsStrOrNull a.rejected_by,
                  rejected_date := jsStrOrNull a.rejected_date,
                  rejection_reason := jsStrOrNull a.rejection_reason }
      else rr
    (.ok (), { s2 with returns := returns' })

/-- An error thrown by a database operation, as inspected by
`_retryOperation` (`code`, and `message` for the substring tests). -/
structure DbErr where
  code : String := ""
  message : Option String := none
  deriving Repr, DecidableEq

/-- Whether `pat` occurs as a contiguous run at the start of `hay`. -/
def charsStartWith : List Char → List Char → Bool
  | _, [] => true
  | [], _ :: _ => false
  | a :: as, b :: bs => a == b && charsStartWith as bs

/-- Whether `pat` occurs as a contiguous run anywhere in `hay`. -/
def charsContain (hay pat : List Char) : Bool :=
  match hay with
  | [] => charsStartWith [] pat
  | _ :: t => charsStartWith hay pat || charsContain t pat

/-- JS `str?.includes(pat)` on a possibly-absent string. -/
def strIncludes (o : Option String) (pat : String) : Bool :=
  match o with
  | some s => charsContain s.toList pat.toList
  | none => false

/-- The transient-connection-error test of `_retryOperation`. -/
def isRetryable (e : DbErr) : Bool :=
  e.code == "ECONNREFUSED" ||
  e.code == "ETIMEDOUT" ||
  e.code == "ENOTFOUND" ||
  e.code == "ENETUNREACH" ||
  e.code == "57P01" ||
  e.code == "57P03" ||
  e.code == "08006" ||
  e.code == "08003" ||
  strIncludes e.message "Connection terminated" ||
  strIncludes e.message "Connection reset" ||
  strIncludes e.message "server closed the connection"

/-- The `for (let attempt = 1; attempt <= maxRetries; attempt++)` loop of
`_retryOperation`.  `results n` is the outcome of the n-th execution of the
operation; the returned list is the sequence of backoff delays (ms) actually
waited.  `.error none` models the loop falling through without executing
(only reachable when `maxRetries < attempt`, i.e. never from
`retryOperation` with a positive `maxRetries`). -/
def retryAux {α : Type} (results : Nat → Except DbErr α) (maxRetries : Nat) :
    Nat → Nat → Except (Option DbErr) α × List Nat
  | _, 0 => (.error none, [])
  | attempt, remaining + 1 =>
    match results attempt with
    | .ok v => (.ok v, [])
    | .error e =>
      if !(isRetryable e) || attempt == maxRetries then (.error (some e), [])
      else
        let delayMs := min (1000 * 2 ^ (attempt - 1)) 5000
        let (res, ds) := retryAux results maxRetries (attempt + 1) remaining
        (res, delayMs :: ds)

/-- `_retryOperation(operation, maxRetries = 3)`: attempts are numbered from
1 and the loop runs while `attempt <= maxRetries`. -/
def retryOperation {α : Type} (results : Nat → Except DbErr α) (maxRetries : Nat := 3) :
    Except (Option DbErr) α × List Nat :=
  retryAux results maxRetries 1 maxRetries

/-! ### A concrete scenario state (the §8 scenario of the requirements):
item `SKU-A` with quantity 7 after a sale of 3 at price 150 and cost 100,
the sale `TRN-00001` with total 450 / cost 300 / profit 150, one pending
return of amount 150 against it, and the customer with lifetime value 450. -/

def wReturnRow : ReturnRow :=
  { id := 1, invoice_number := "TRN-00001", invoice_id := 1, date := "2024-01-02",
    customer_name := "Ada", customer_id := 7, amount := 150, reason := "damaged",
    status := "pending",
    items := [{ sku := "SKU-A", name := "Widget", quantity := 1, price := some 150 }] }

def wState : DBState :=
  { inventory := [{ id := 1, sku := "SKU-A", name := "Widget", category := "general",
                    quantity := 7, cost_price := 100, price := 150 }],
    sales := [{ id := 1, invoice_number := "TRN-00001", date := "2024-01-01",
                customer_id := some 7, customer_name := some "Ada",
                seller_id := some 2, seller_name := some "Sam",
                items := [{ itemId := some 1, sku := "SKU-A", name := "Widget",
                            quantity := 3, price := 150, actualPrice := some 150,
                            systemPrice := some 150, discount := some 0,
                            costPrice := some 100 }],
                total := 450, total_cost := 300, total_discount := 0, profit := 150,
                payment_method := "cash", status := "completed" }],
    returns := [wReturnRow],
    returned_items := [{ return_id := 1, sku := "SKU-A", name := "Widget",
                         category := "general", quantity := 1, original_price := 150,
                         condition := "returned", return_date := "2024-01-02",
                         customer_name := "Ada", return_reason := "damaged" }],
    customers := [{ id := 7, name := "Ada", lifetime_value := 450 }],
    nextSaleId := 2, nextReturnId := 2 }

/-- The scenario state with its return already in the terminal state
`rejected`. -/
def c5State : DBState :=
  { wState with returns := [{ wReturnRow with status := "rejected" }] }

/-! ### Stock accounting over sequences of sales -/

/-- Quantity of the first inventory row with the given id (0 when absent). -/
def qtyInInv (inv : List InventoryItem) (j : Int) : Rat :=
  ((inv.find? fun r => r.id == j).map InventoryItem.quantity).getD 0

/-- Quantity of an item in the database state. -/
def qtyOf (s : DBState) (j : Int) : Rat := qtyInInv s.inventory j

/-- The state after a `POST /api/sales` call (committed or rolled back). -/
def applySale (s : DBState) (r : SaleRequest) : DBState := (createSaleApp s r).2

/-- The state after a sequence of `POST /api/sales` calls. -/
def runSales : DBState → List SaleRequest → DBState
  | s, [] => s
  | s, r :: rs => runSales (applySale s r) rs

/-- The summed stock deduction an item experiences over a sequence of sale
calls (each failed call contributes 0 because it is rolled back). -/
def saleDeductions (j : Int) : DBState → List SaleRequest → Rat
  | _, [] => 0
  | s, r :: rs => (qtyOf s j - qtyOf (applySale s r) j) + saleDeductions j (applySale s r) rs

/-- Total quantity requested for an item id across a request's line items
(only lines the guard actually processes count). -/
def requestedTotal (j : Int) (items : List SaleItem) : Rat :=
  ((items.filter fun it => effItemId it == some j).map SaleItem.quantity).sum

/-- The sale row as first inserted (`TEMP` invoice number) by `createSaleTx`. -/
def newSaleRow (s : DBState) (r : SaleRequest) (tc td : Rat) (out : List SaleItem) : SaleRow :=
  { id := s.nextSaleId, invoice_number := "TEMP", date := r.date,
    customer_id := r.customer_id, customer_name := r.customer_name,
    seller_id := r.seller_id, seller_name := r.seller_name, items := out,
    total := r.total, total_cost := tc, total_discount := td,
    profit := r.total - tc, payment_method := r.payment_method, status := r.status }

/-- A sale line whose (truthy) item id has no inventory row. -/
def lineMissingB (inv : List InventoryItem) (it : SaleItem) : Bool :=
  match effItemId it with
  | none => false
  | some i => (inv.find? fun r => r.id == i).isNone

/-- A sale line requesting more than the stock of its inventory row. -/
def lineShortB (inv : List InventoryItem) (it : SaleItem) : Bool :=
  match effItemId it with
  | none => false
  | some i =>
    match inv.find? (fun r => r.id == i) with
    | none => false
    | some R => decide (R.quantity < it.quantity)

/-- A sale line that makes the processing loop throw (against the given
inventory): missing item or insufficient stock. -/
def lineBadB (inv : List InventoryItem) (it : SaleItem) : Bool :=
  lineMissingB inv it || lineShortB inv it

/-- The scenario's over-stock request (20 of item 1, stock 7). -/
def wReq20 : SaleRequest :=
  { items := [{ itemId := some 1, quantity := 20, price := 150 }], total := 3000 }

/-- A request against a missing item id. -/
def wReq99 : SaleRequest :=
  { items := [{ itemId := some 99, quantity := 1, price := 5 }], total := 5 }

/-- A line with no truthy item id (as submitted by a client). -/
def wSkipLine : SaleItem := { sku := "MISC", name := "Misc", quantity := 2, price := 9 }

/-- A normal line against inventory item 1. -/
def wGoodLine : SaleItem :=
  { itemId := some 1, sku := "SKU-A", name := "Widget", quantity := 1, price := 150 }

/-- A request mixing a processable line and a skipped line. -/
def wReqSkip : SaleRequest := { items := [wGoodLine, wSkipLine], total := 168 }

/-! ### General lemmas about the operations -/

/-- A quantity rewrite keyed on the row id commutes with `find?` by id. -/
theorem find?_id_map (inv : List InventoryItem) (itemId : Int) (newQ : Rat) (j : Int) :
    ((inv.map fun r => if r.id == itemId then { r with quantity := newQ } else r).find?
        (fun r => r.id == j))
      = (inv.find? fun r => r.id == j).map
          (fun r => if r.id == itemId then { r with quantity := newQ } else r) := by
  rw [List.find?_map]
  have hc : ((fun r : InventoryItem => r.id == j) ∘
      fun r => if r.id == itemId then { r with quantity := newQ } else r)
      = fun r : InventoryItem => r.id == j := by
    funext r
    by_cases h : r.id == itemId <;> simp [Function.comp, h]
  rw [hc]

/-- After `updateReturnStatusApp`, the `sales` table is either untouched or
rewritten by exactly the approval reversal keyed on the return's invoice. -/
theorem updateReturnStatus_sales_cases (s : DBState) (a : UpdateReturnArgs) :
    ((updateReturnStatusApp s a).2.sales = s.sales)
    ∨ ∃ rec sale, s.returns.find? (fun rr => rr.id == a.returnId) = some rec ∧
        s.sales.find? (fun sr => sr.invoice_number == rec.invoice_number) = some sale ∧
        (updateReturnStatusApp s a).2.sales = s.sales.map (fun sr =>
          if sr.invoice_number == rec.invoice_number then
            { sr with total := sale.total - rec.amount,
                      total_cost := sale.total_cost - computeReturnedCost sale.items rec.items,
                      profit := (sale.total - rec.amount)
                        - (sale.total_cost - computeReturnedCost sale.items rec.items),
                      status := "returned" }
          else sr) := by
  cases hf : s.returns.find? (fun rr => rr.id == a.returnId) with
  | none => left; simp [updateReturnStatusApp, hf]
  | some rec =>
    by_cases hg1 : (a.status == "approved" && rec.status != "approved") = true
    · cases hsf : s.sales.find? (fun sr => sr.invoice_number == rec.invoice_number) with
      | none =>
        left
        simp only [updateReturnStatusApp, hf, hg1, hsf]
        split <;> rfl
      | some sale =>
        right
        refine ⟨rec, sale, rfl, hsf, ?_⟩
        simp only [updateReturnStatusApp, hf, hg1, hsf]
        split <;> rfl
    · left
      simp only [Bool.not_eq_true] at hg1
      simp only [updateReturnStatusApp, hf, hg1]
      split <;> rfl

/-- C2: for every Sale row, `profit = total - totalCost` holds immediately
after `createSale` commits and again after any `updateReturnStatus` call
(in particular after an approved-return adjustment rewrites the totals). -/
theorem c2_profit_identity (s : DBState)
    (hs : ∀ row ∈ s.sales, row.profit = row.total - row.total_cost) :
    (∀ r : SaleRequest, ∀ row ∈ (createSaleApp s r).2.sales,
        row.profit = row.total - row.total_cost)
    ∧ (∀ a : UpdateReturnArgs, ∀ row ∈ (updateReturnStatusApp s a).2.sales,
        row.profit = row.total - row.total_cost) := by
  constructor
  · intro r row hrow
    unfold createSaleApp at hrow
    cases htx : createSaleTx s r with
    | error e => rw [htx] at hrow; exact hs row hrow
    | ok v =>
      obtain ⟨res, s'⟩ := v
      rw [htx] at hrow
      unfold createSaleTx at htx
      cases hps : processSaleItems s.inventory 0 0 r.items with
      | error e => rw [hps] at htx; exact absurd htx (by simp)
      | ok w =>
        obtain ⟨inv', tc, td, out⟩ := w
        rw [hps] at htx
        simp only [Except.ok.injEq, Prod.mk.injEq] at htx
        obtain ⟨-, hs'⟩ := htx
        subst hs'
        simp only [List.mem_map] at hrow
        obtain ⟨a, ha, hfa⟩ := hrow
        have hprof : a.profit = a.total - a.total_cost := by
          rcases List.mem_append.mp ha with h | h
          · exact hs a h
          · simp only [List.mem_singleton] at h
            subst h
            rfl
        subst hfa
        by_cases hc : (a.id == s.nextSaleId) <;> simp [hc, hprof]
  · intro a row hrow
    rcases updateReturnStatus_sales_cases s a with hcase | ⟨rec, sale, -, -, hcase⟩
    · rw [hcase] at hrow; exact hs row hrow
    · rw [hcase] at hrow
      simp only [List.mem_map] at hrow
      obtain ⟨b, hb, hfb⟩ := hrow
      subst hfb
      by_cases hc : (b.invoice_number == rec.invoice_number) <;> simp [hc, hs b hb]

/-- Witness for C2 at a concrete state. -/
theorem c2_profit_identity_witness :
    (∀ row ∈ (DBState.mk [] [] [] [] [] 1 1).sales,
        row.profit = row.total - row.total_cost)
    ∧ ((∀ r : SaleRequest, ∀ row ∈ (createSaleApp (DBState.mk [] [] [] [] [] 1 1) r).2.sales,
          row.profit = row.total - row.total_cost)
       ∧ (∀ a : UpdateReturnArgs,
          ∀ row ∈ (updateReturnStatusApp (DBState.mk [] [] [] [] [] 1 1) a).2.sales,
          row.profit = row.total - row.total_cost)) :=
  ⟨by simp, c2_profit_identity (DBState.mk [] [] [] [] [] 1 1) (by simp)⟩

/-- C8: a `createReturn` call for an invoice that already has a Return row
(whatever its status) fails with `DuplicateReturn` and leaves the state
unchanged (no Return or ReturnedItem rows are created). -/
theorem c8_duplicate_return (s : DBState) (r : ReturnRequest)
    (hex : ∃ rr ∈ s.returns, rr.invoice_number = r.invoice_number) :
    createReturnApp s r = (.error (.duplicateReturn r.invoice_number), s) := by
  obtain ⟨rr, hmem, heq⟩ := hex
  have hsome : (s.returns.find? (fun q => q.invoice_number == r.invoice_number)).isSome := by
    rw [List.find?_isSome]
    exact ⟨rr, hmem, by simp [heq]⟩
  unfold createReturnApp
  cases hf : s.returns.find? (fun q => q.invoice_number == r.invoice_number) with
  | none => rw [hf] at hsome; simp at hsome
  | some q => rfl

/-- C9 counterexample: an operation that always fails with a transient
connection error is surfaced after only two backoff delays (1s and 2s) —
the loop makes 3 attempts in total, so the claimed third retry with a 4s
delay never happens. -/
theorem c9_counterexample :
    retryOperation (fun _ => (.error { code := "ECONNREFUSED" } : Except DbErr Unit)) 3
      = (.error (some { code := "ECONNREFUSED" }), [1000, 2000])
    ∧ ([1000, 2000] : List Nat) ≠ [1000, 2000, 4000] := by
  exact ⟨rfl, by decide⟩

/-- C9 (amended): a transiently-failing operation is retried up to 2 times,
with backoff delays of 1s and 2s, before the error surfaces on the third
attempt; a non-transient error propagates immediately with no retry; a
first-attempt success performs no delay. -/
theorem c9_retry_schedule {α : Type} (e : DbErr) (v : α) (results : Nat → Except DbErr α) :
    (isRetryable e = true →
       retryOperation (fun _ => (.error e : Except DbErr α)) 3
         = (.error (some e), [1000, 2000]))
    ∧ (isRetryable e = false →
       retryOperation (fun _ => (.error e : Except DbErr α)) 3 = (.error (some e), []))
    ∧ (results 1 = .ok v → retryOperation results 3 = (.ok v, [])) := by
  refine ⟨fun h => ?_, fun h => ?_, fun h => ?_⟩
  · norm_num [retryOperation, retryAux, h]
  · norm_num [retryOperation, retryAux, h]
  · norm_num [retryOperation, retryAux, h]

/-- Witness for C9's amended theorem: `ECONNREFUSED` is transient and goes
through the 1s and 2s delays; `23505` (unique violation) is not retried. -/
theorem c9_retry_schedule_witness :
    (isRetryable { code := "ECONNREFUSED" } = true
      ∧ retryOperation (fun _ => (.error { code := "ECONNREFUSED" } : Except DbErr Unit)) 3
          = (.error (some { code := "ECONNREFUSED" }), [1000, 2000]))
    ∧ (isRetryable { code := "23505" } = false
      ∧ retryOperation (fun _ => (.error { code := "23505" } : Except DbErr Unit)) 3
          = (.error (some { code := "23505" }), []))
    ∧ retryOperation (fun _ => (.ok () : Except DbErr Unit)) 3 = (.ok (), []) :=
  ⟨⟨rfl,
    (c9_retry_schedule { code := "ECONNREFUSED" } () (fun _ => .ok ())).1 rfl⟩,
   ⟨rfl,
    (c9_retry_schedule { code := "23505" } () (fun _ => .ok ())).2.1 rfl⟩,
   (c9_retry_schedule { code := "23505" } () (fun _ => .ok ())).2.2 rfl⟩

/-- Witness for C8: a second return for invoice `TRN-00001` is rejected as a
duplicate whatever the payload. -/
theorem c8_duplicate_return_witness :
    (∃ rr ∈ wState.returns, rr.invoice_number = "TRN-00001")
    ∧ createReturnApp wState
        { invoice_number := "TRN-00001", invoice_id := 1, date := "2024-01-05",
          customer_name := "Ada", customer_id := 7, amount := 150, reason := "again",
          items := [{ sku := "SKU-A", name := "Widget", quantity := 1, price := some 150 }] }
        = (.error (.duplicateReturn "TRN-00001"), wState) :=
  ⟨by decide,
   c8_duplicate_return wState
     { invoice_number := "TRN-00001", invoice_id := 1, date := "2024-01-05",
       customer_name := "Ada", customer_id := 7, amount := 150, reason := "again",
       items := [{ sku := "SKU-A", name := "Widget", quantity := 1, price := some 150 }] }
     (by decide)⟩

/-- Re-applying a return's current status touches only the return row's
status/actor/date/reason fields: both effect blocks are guarded by
"current status differs from the target status". -/
theorem updateReturn_same_status_frame (s : DBState) (a : UpdateReturnArgs) (rec : ReturnRow)
    (h : s.returns.find? (fun rr => rr.id == a.returnId) = some rec)
    (hst : rec.status = a.status) :
    ((updateReturnStatusApp s a).2.sales = s.sales)
    ∧ ((updateReturnStatusApp s a).2.customers = s.customers)
    ∧ ((updateReturnStatusApp s a).2.returned_items = s.returned_items)
    ∧ ((updateReturnStatusApp s a).2.inventory = s.inventory) := by
  have hg1 : (a.status == "approved" && rec.status != "approved") = false := by
    cases hb : (a.status == "approved") with
    | false => simp [hb]
    | true =>
      have hrec : rec.status = "approved" := hst.trans (eq_of_beq hb)
      simp [hrec]
  have hg2 : (a.status == "rejected" && rec.status != "rejected") = false := by
    cases hb : (a.status == "rejected") with
    | false => simp [hb]
    | true =>
      have hrec : rec.status = "rejected" := hst.trans (eq_of_beq hb)
      simp [hrec]
  refine ⟨?_, ?_, ?_, ?_⟩ <;> simp [updateReturnStatusApp, h, hg1, hg2]

/-- After any `updateReturnStatusApp` call that finds its return, the
`returns` table is rewritten by exactly the status/actor-field update. -/
theorem updateReturnStatus_returns_found (s : DBState) (a : UpdateReturnArgs) (rec : ReturnRow)
    (h : s.returns.find? (fun rr => rr.id == a.returnId) = some rec) :
    (updateReturnStatusApp s a).2.returns = s.returns.map (fun rr =>
      if rr.id == a.returnId then
        { rr with status := a.status,
                  approved_by := jsStrOrNull a.approved_by,
                  approved_date := jsStrOrNull a.approved_date,
                  rejected_by := jsStrOrNull a.rejected_by,
                  rejected_date := jsStrOrNull a.rejected_date,
                  rejection_reason := jsStrOrNull a.rejection_reason }
      else rr) := by
  simp only [updateReturnStatusApp, h]
  repeat first
  | rfl
  | split

/-- C4: approving a return twice leaves the sales, customers and
returned-items tables exactly as after approving it once — after the first
call the return's status is `approved`, so the second call's financial
block is skipped by the status guard. -/
theorem c4_approval_idempotent (s : DBState) (a1 a2 : UpdateReturnArgs)
    (hid : a2.returnId = a1.returnId)
    (h1 : a1.status = "approved") (h2 : a2.status = "approved") :
    ((updateReturnStatusApp (updateReturnStatusApp s a1).2 a2).2.sales
        = (updateReturnStatusApp s a1).2.sales)
    ∧ ((updateReturnStatusApp (updateReturnStatusApp s a1).2 a2).2.customers
        = (updateReturnStatusApp s a1).2.customers)
    ∧ ((updateReturnStatusApp (updateReturnStatusApp s a1).2 a2).2.returned_items
        = (updateReturnStatusApp s a1).2.returned_items) := by
  cases hf : s.returns.find? (fun rr => rr.id == a1.returnId) with
  | none =>
    have hS1 : (updateReturnStatusApp s a1).2 = s := by
      simp [updateReturnStatusApp, hf]
    rw [hS1]
    have hf2 : s.returns.find? (fun rr => rr.id == a2.returnId) = none := by
      rw [hid]; exact hf
    have hS2 : (updateReturnStatusApp s a2).2 = s := by
      simp [updateReturnStatusApp, hf2]
    rw [hS2]
    exact ⟨rfl, rfl, rfl⟩
  | some rec =>
    have hret1 := updateReturnStatus_returns_found s a1 rec hf
    have hrecid : (rec.id == a1.returnId) = true := by
      simpa using List.find?_some hf
    have hfind2 : (updateReturnStatusApp s a1).2.returns.find?
        (fun rr => rr.id == a2.returnId)
        = some { rec with status := a1.status,
                          approved_by := jsStrOrNull a1.approved_by,
                          approved_date := jsStrOrNull a1.approved_date,
                          rejected_by := jsStrOrNull a1.rejected_by,
                          rejected_date := jsStrOrNull a1.rejected_date,
                          rejection_reason := jsStrOrNull a1.rejection_reason } := by
      rw [hret1, List.find?_map]
      have hcomp : ((fun rr : ReturnRow => rr.id == a2.returnId) ∘ (fun rr =>
          if rr.id == a1.returnId then
            { rr with status := a1.status,
                      approved_by := jsStrOrNull a1.approved_by,
                      approved_date := jsStrOrNull a1.approved_date,
                      rejected_by := jsStrOrNull a1.rejected_by,
                      rejected_date := jsStrOrNull a1.rejected_date,
                      rejection_reason := jsStrOrNull a1.rejection_reason }
          else rr)) = fun rr : ReturnRow => rr.id == a1.returnId := by
        funext rr
        by_cases hb : rr.id == a1.returnId <;> simp [Function.comp, hb, hid]
      rw [hcomp, hf]
      have hrecid' : rec.id = a1.returnId := by simpa using hrecid
      simp [hrecid']
    obtain ⟨hsal, hcus, hri, -⟩ :=
      updateReturn_same_status_frame (updateReturnStatusApp s a1).2 a2 _ hfind2
        (show a1.status = a2.status from h1.trans h2.symm)
    exact ⟨hsal, hcus, hri⟩

/-- Witness for C4 on the scenario state (pending return 1 approved twice,
the second time by a different actor). -/
theorem c4_approval_idempotent_witness :
    (((⟨1, "approved", some "Other", some "2024-01-04", none, none, none⟩ :
          UpdateReturnArgs).returnId
        = (⟨1, "approved", some "Boss", some "2024-01-03", none, none, none⟩ :
          UpdateReturnArgs).returnId)
      ∧ ("approved" : String) = "approved" ∧ ("approved" : String) = "approved")
    ∧ (((updateReturnStatusApp
          (updateReturnStatusApp wState
            ⟨1, "approved", some "Boss", some "2024-01-03", none, none, none⟩).2
          ⟨1, "approved", some "Other", some "2024-01-04", none, none, none⟩).2.sales
        = (updateReturnStatusApp wState
            ⟨1, "approved", some "Boss", some "2024-01-03", none, none, none⟩).2.sales)
      ∧ ((updateReturnStatusApp
          (updateReturnStatusApp wState
            ⟨1, "approved", some "Boss", some "2024-01-03", none, none, none⟩).2
          ⟨1, "approved", some "Other", some "2024-01-04", none, none, none⟩).2.customers
        = (updateReturnStatusApp wState
            ⟨1, "approved", some "Boss", some "2024-01-03", none, none, none⟩).2.customers)
      ∧ ((updateReturnStatusApp
          (updateReturnStatusApp wState
            ⟨1, "approved", some "Boss", some "2024-01-03", none, none, none⟩).2
          ⟨1, "approved", some "Other", some "2024-01-04", none, none, none⟩).2.returned_items
        = (updateReturnStatusApp wState
            ⟨1, "approved", some "Boss", some "2024-01-03", none, none, none⟩).2.returned_items)) :=
  ⟨⟨rfl, rfl, rfl⟩,
   c4_approval_idempotent wState
     ⟨1, "approved", some "Boss", some "2024-01-03", none, none, none⟩
     ⟨1, "approved", some "Other", some "2024-01-04", none, none, none⟩
     rfl rfl rfl⟩

/-- C5 counterexample: on a return whose status is the terminal `rejected`,
`updateReturnStatus(.., approved)` still applies the transition and its
effects — the status check only guards re-applying the same status.  The
sale is rewritten (total 450 -> 300, status -> returned), the customer is
debited, and the return moves to `approved`. -/
theorem c5_counterexample :
    (c5State.returns.map ReturnRow.status = ["rejected"])
    ∧ ((updateReturnStatusApp c5State
          { returnId := 1, status := "approved" }).2.returns.map ReturnRow.status
        = ["approved"])
    ∧ ((updateReturnStatusApp c5State
          { returnId := 1, status := "approved" }).2.sales.map SaleRow.total = [300])
    ∧ ((updateReturnStatusApp c5State
          { returnId := 1, status := "approved" }).2.sales.map SaleRow.status
        = ["returned"])
    ∧ ((updateReturnStatusApp c5State
          { returnId := 1, status := "approved" }).2.customers.map Customer.lifetime_value
        = [300]) := by
  refine ⟨by decide, by decide, ?_, by decide, ?_⟩ <;>
    norm_num [updateReturnStatusApp, c5State, wState, wReturnRow,
      computeReturnedCost, jsIntTruthy, List.find?, List.filter] <;>
    rfl

/-- C5 (amended): `pending -> approved` and `pending -> rejected` exist, and
re-applying a return's current status is effect-free on the sales, customers,
returned-items and inventory tables; but `approved` and `rejected` are not
terminal — the guard is only "current status differs from the target", so
`rejected -> approved` (with the financial reversal) and
`approved -> rejected` (deleting returned items) are applied. -/
theorem c5_reapply_current_status_noop (s : DBState) (a : UpdateReturnArgs) (rec : ReturnRow)
    (h : s.returns.find? (fun rr => rr.id == a.returnId) = some rec)
    (hst : rec.status = a.status) :
    ((updateReturnStatusApp s a).2.sales = s.sales)
    ∧ ((updateReturnStatusApp s a).2.customers = s.customers)
    ∧ ((updateReturnStatusApp s a).2.returned_items = s.returned_items)
    ∧ ((updateReturnStatusApp s a).2.inventory = s.inventory) :=
  updateReturn_same_status_frame s a rec h hst

/-- Witness for C5's amended theorem: re-rejecting the already-rejected
return of `c5State` changes no table but `returns`. -/
theorem c5_reapply_current_status_noop_witness :
    (c5State.returns.find? (fun rr => rr.id == (1 : Nat)) = some { wReturnRow with status := "rejected" }
      ∧ ({ wReturnRow with status := "rejected" } : ReturnRow).status = "rejected")
    ∧ (((updateReturnStatusApp c5State { returnId := 1, status := "rejected" }).2.sales
          = c5State.sales)
      ∧ ((updateReturnStatusApp c5State { returnId := 1, status := "rejected" }).2.customers
          = c5State.customers)
      ∧ ((updateReturnStatusApp c5State { returnId := 1, status := "rejected" }).2.returned_items
          = c5State.returned_items)
      ∧ ((updateReturnStatusApp c5State { returnId := 1, status := "rejected" }).2.inventory
          = c5State.inventory)) :=
  ⟨⟨by decide, by decide⟩,
   c5_reapply_current_status_noop c5State { returnId := 1, status := "rejected" }
     { wReturnRow with status := "rejected" } (by decide) (by decide)⟩

/-- C7: rejecting a return never changes the sales, customers or inventory
tables; when the return was not already rejected its ReturnedItem rows are
deleted (and kept unchanged when it was); only the return row's
status/actor/date/reason fields are rewritten. -/
theorem c7_rejection_frame (s : DBState) (a : UpdateReturnArgs) (rec : ReturnRow)
    (ha : a.status = "rejected")
    (h : s.returns.find? (fun rr => rr.id == a.returnId) = some rec) :
    ((updateReturnStatusApp s a).2.sales = s.sales)
    ∧ ((updateReturnStatusApp s a).2.customers = s.customers)
    ∧ ((updateReturnStatusApp s a).2.inventory = s.inventory)
    ∧ (rec.status ≠ "rejected" →
        (updateReturnStatusApp s a).2.returned_items
          = s.returned_items.filter (fun ri => !(ri.return_id == a.returnId)))
    ∧ (rec.status = "rejected" →
        (updateReturnStatusApp s a).2.returned_items = s.returned_items)
    ∧ ((updateReturnStatusApp s a).2.returns = s.returns.map (fun rr =>
        if rr.id == a.returnId then
          { rr with status := a.status,
                    approved_by := jsStrOrNull a.approved_by,
                    approved_date := jsStrOrNull a.approved_date,
                    rejected_by := jsStrOrNull a.rejected_by,
                    rejected_date := jsStrOrNull a.rejected_date,
                    rejection_reason := jsStrOrNull a.rejection_reason }
        else rr)) := by
  have hg1 : (a.status == "approved" && rec.status != "approved") = false := by
    simp [ha]
  by_cases hst : rec.status = "rejected"
  · have hg2 : (a.status == "rejected" && rec.status != "rejected") = false := by
      simp [hst]
    refine ⟨?_, ?_, ?_, fun hc => absurd hst hc, fun _ => ?_, ?_⟩ <;>
      simp [updateReturnStatusApp, h, hg1, hg2]
  · have hg2 : (a.status == "rejected" && rec.status != "rejected") = true := by
      simp [ha, hst]
    refine ⟨?_, ?_, ?_, fun _ => ?_, fun hc => absurd hc hst, ?_⟩ <;>
      simp [updateReturnStatusApp, h, hg1, hg2]

/-- Witness for C7: rejecting the pending return of the scenario state. -/
theorem c7_rejection_frame_witness :
    (("rejected" : String) = "rejected"
      ∧ wState.returns.find? (fun rr => rr.id == (1 : Nat)) = some wReturnRow)
    ∧ (((updateReturnStatusApp wState
          { returnId := 1, status := "rejected", rejected_by := some "Boss" }).2.sales
            = wState.sales)
      ∧ ((updateReturnStatusApp wState
          { returnId := 1, status := "rejected", rejected_by := some "Boss" }).2.customers
            = wState.customers)
      ∧ ((updateReturnStatusApp wState
          { returnId := 1, status := "rejected", rejected_by := some "Boss" }).2.inventory
            = wState.inventory)
      ∧ (wReturnRow.status ≠ "rejected" →
          (updateReturnStatusApp wState
            { returnId := 1, status := "rejected", rejected_by := some "Boss" }).2.returned_items
              = wState.returned_items.filter (fun ri => !(ri.return_id == (1 : Nat))))
      ∧ (wReturnRow.status = "rejected" →
          (updateReturnStatusApp wState
            { returnId := 1, status := "rejected", rejected_by := some "Boss" }).2.returned_items
              = wState.returned_items)
      ∧ ((updateReturnStatusApp wState
          { returnId := 1, status := "rejected", rejected_by := some "Boss" }).2.returns
            = wState.returns.map (fun rr =>
              if rr.id == (1 : Nat) then
                { rr with status := "rejected",
                          approved_by := none, approved_date := none,
                          rejected_by := some "Boss", rejected_date := none,
                          rejection_reason := none }
              else rr))) :=
  ⟨⟨rfl, by decide⟩,
   c7_rejection_frame wState
     { returnId := 1, status := "rejected", rejected_by := some "Boss" }
     wReturnRow rfl (by decide)⟩

/-- The `returnedCost` fold of the code equals the specification sum: items
whose sku has no match in the sale contribute 0, and the truthiness gate on
`costPrice` only skips contributions that are 0 anyway. -/
theorem computeReturnedCost_eq_spec (saleItems : List SaleItem) (ris : List RetItemSnap) :
    computeReturnedCost saleItems ris = returnedCostSpec saleItems ris := by
  suffices h : ∀ (l : List RetItemSnap) (acc : Rat),
      List.foldl (fun acc ri =>
        match saleItems.find? (fun si => si.sku == ri.sku) with
        | some originalItem =>
          match originalItem.costPrice with
          | some cp => if cp != 0 then acc + cp * ri.quantity else acc
          | none => acc
        | none => acc) acc l
      = acc + returnedCostSpec saleItems l by
    simpa [computeReturnedCost] using h ris 0
  intro l
  induction l with
  | nil => intro acc; simp [returnedCostSpec]
  | cons ri rest ih =>
    intro acc
    rw [List.foldl_cons, ih]
    simp only [returnedCostSpec, List.map_cons, List.sum_cons]
    cases hf : saleItems.find? (fun si => si.sku == ri.sku) with
    | none => simp [hf]
    | some originalItem =>
      cases hcp : originalItem.costPrice with
      | none => simp [hf, hcp]
      | some cp =>
        by_cases hz : cp = 0
        · simp [hf, hcp, hz]
        · simp only [hf, hcp]
          rw [if_pos (by simp [hz])]
          simp [Option.getD]
          ring

/-- C6: approving a pending return whose invoice matches a Sale computes
`returnedCost` as the sku-matched cost sum, rewrites the matching sale rows
with `total - amount`, `totalCost - returnedCost`, the profit identity and
status `returned`, and debits the customer's lifetime value by the return
amount when the sale has a (truthy) customer id. -/
theorem c6_approval_financials (s : DBState) (a : UpdateReturnArgs)
    (rec : ReturnRow) (sale : SaleRow)
    (ha : a.status = "approved")
    (hrec : s.returns.find? (fun rr => rr.id == a.returnId) = some rec)
    (hst : rec.status ≠ "approved")
    (hsale : s.sales.find? (fun sr => sr.invoice_number == rec.invoice_number) = some sale) :
    (computeReturnedCost sale.items rec.items = returnedCostSpec sale.items rec.items)
    ∧ ((updateReturnStatusApp s a).2.sales = s.sales.map (fun sr =>
        if sr.invoice_number == rec.invoice_number then
          { sr with total := sale.total - rec.amount,
                    total_cost := sale.total_cost - computeReturnedCost sale.items rec.items,
                    profit := (sale.total - rec.amount)
                      - (sale.total_cost - computeReturnedCost sale.items rec.items),
                    status := "returned" }
        else sr))
    ∧ (∀ cid : Int, sale.customer_id = some cid → cid ≠ 0 →
        (updateReturnStatusApp s a).2.customers = s.customers.map (fun c =>
          if c.id == cid then { c with lifetime_value := c.lifetime_value - rec.amount }
          else c)) := by
  have hg1 : (a.status == "approved" && rec.status != "approved") = true := by
    simp [ha, hst]
  have hg2 : (a.status == "rejected" && rec.status != "rejected") = false := by
    simp [ha]
  refine ⟨computeReturnedCost_eq_spec sale.items rec.items, ?_, ?_⟩
  · simp [updateReturnStatusApp, hrec, hg1, hg2, hsale]
  · intro cid hcid hcid0
    simp [updateReturnStatusApp, hrec, hg1, hg2, hsale, hcid, jsIntTruthy, hcid0]

/-- Witness for C6: approving the pending return of the scenario state
(amount 150, one returned unit whose sale-line cost is 100). -/
theorem c6_approval_financials_witness :
    (("approved" : String) = "approved"
      ∧ wState.returns.find? (fun rr => rr.id == (1 : Nat)) = some wReturnRow
      ∧ wReturnRow.status ≠ "approved"
      ∧ wState.sales.find?
          (fun sr => sr.invoice_number == wReturnRow.invoice_number) = some (wState.sales.get ⟨0, by decide⟩))
    ∧ ((computeReturnedCost (wState.sales.get ⟨0, by decide⟩).items wReturnRow.items
          = returnedCostSpec (wState.sales.get ⟨0, by decide⟩).items wReturnRow.items)
      ∧ ((updateReturnStatusApp wState
            { returnId := 1, status := "approved", approved_by := some "Boss" }).2.sales
          = wState.sales.map (fun sr =>
            if sr.invoice_number == wReturnRow.invoice_number then
              { sr with total := (wState.sales.get ⟨0, by decide⟩).total - wReturnRow.amount,
                        total_cost := (wState.sales.get ⟨0, by decide⟩).total_cost
                          - computeReturnedCost (wState.sales.get ⟨0, by decide⟩).items wReturnRow.items,
                        profit := ((wState.sales.get ⟨0, by decide⟩).total - wReturnRow.amount)
                          - ((wState.sales.get ⟨0, by decide⟩).total_cost
                            - computeReturnedCost (wState.sales.get ⟨0, by decide⟩).items wReturnRow.items),
                        status := "returned" }
            else sr))
      ∧ (∀ cid : Int, (wState.sales.get ⟨0, by decide⟩).customer_id = some cid → cid ≠ 0 →
          (updateReturnStatusApp wState
            { returnId := 1, status := "approved", approved_by := some "Boss" }).2.customers
          = wState.customers.map (fun c =>
            if c.id == cid then { c with lifetime_value := c.lifetime_value - wReturnRow.amount }
            else c))) :=
  ⟨⟨rfl, by decide, by decide, by decide⟩,
   c6_approval_financials wState
     { returnId := 1, status := "approved", approved_by := some "Boss" }
     wReturnRow (wState.sales.get ⟨0, by decide⟩) rfl (by decide) (by decide) (by decide)⟩

theorem requestedTotal_cons (j : Int) (it : SaleItem) (rest : List SaleItem) :
    requestedTotal j (it :: rest)
      = (if effItemId it == some j then it.quantity else 0) + requestedTotal j rest := by
  simp only [requestedTotal, List.filter_cons]
  split <;> simp

theorem requestedTotal_nonneg (j : Int) (items : List SaleItem)
    (h : ∀ l ∈ items, 0 ≤ l.quantity) : 0 ≤ requestedTotal j items := by
  apply List.sum_nonneg
  intro x hx
  rw [List.mem_map] at hx
  obtain ⟨l, hl, rfl⟩ := hx
  exact h l (List.mem_of_mem_filter hl)

/-- The sale-line loop keeps every inventory quantity non-negative: each
processed line passes the `quantity < requested` pre-check before the
decrement. -/
theorem processSaleItems_nonneg :
    ∀ (items : List SaleItem) (inv : List InventoryItem) (tc td : Rat)
      (inv' : List InventoryItem) (tc' td' : Rat) (out : List SaleItem),
    (∀ r ∈ inv, 0 ≤ r.quantity) →
    processSaleItems inv tc td items = .ok (inv', tc', td', out) →
    ∀ r ∈ inv', 0 ≤ r.quantity := by
  intro items
  induction items with
  | nil =>
    intro inv tc td inv' tc' td' out h0 hok
    simp only [processSaleItems, Except.ok.injEq, Prod.mk.injEq] at hok
    obtain ⟨h1, -, -, -⟩ := hok
    subst h1
    exact h0
  | cons it rest ih =>
    intro inv tc td inv' tc' td' out h0 hok
    simp only [processSaleItems] at hok
    cases heff : effItemId it with
    | none =>
      rw [heff] at hok
      cases hrec : processSaleItems inv tc td rest with
      | error e => rw [hrec] at hok; exact absurd hok (by simp)
      | ok w =>
        obtain ⟨i1, c1, d1, o1⟩ := w
        rw [hrec] at hok
        simp only [Except.ok.injEq, Prod.mk.injEq] at hok
        obtain ⟨h1, -, -, -⟩ := hok
        subst h1
        exact ih inv tc td _ _ _ _ h0 hrec
    | some i =>
      rw [heff] at hok
      simp only [] at hok
      cases hfind : inv.find? (fun r => r.id == i) with
      | none => rw [hfind] at hok; exact absurd hok (by simp)
      | some inventoryItem =>
        rw [hfind] at hok
        simp only [] at hok
        by_cases hlt : inventoryItem.quantity < it.quantity
        · rw [if_pos hlt] at hok; exact absurd hok (by simp)
        · rw [if_neg hlt] at hok
          cases hrec : processSaleItems
              (inv.map fun r => if r.id == i then
                { r with quantity := inventoryItem.quantity - it.quantity } else r)
              (tc + inventoryItem.cost_price * it.quantity)
              (td + (inventoryItem.price
                - (match it.actualPrice with | some p => p | none => it.price)) * it.quantity)
              rest with
          | error e => rw [hrec] at hok; exact absurd hok (by simp)
          | ok w =>
            obtain ⟨i1, c1, d1, o1⟩ := w
            rw [hrec] at hok
            simp only [Except.ok.injEq, Prod.mk.injEq] at hok
            obtain ⟨h1, -, -, -⟩ := hok
            subst h1
            refine ih _ _ _ _ _ _ _ ?_ hrec
            intro r hr
            rw [List.mem_map] at hr
            obtain ⟨r0, hr0, rfl⟩ := hr
            by_cases hid : (r0.id == i)
            · rw [if_pos hid]
              exact sub_nonneg.mpr (not_lt.mp hlt)
            · rw [if_neg hid]
              exact h0 r0 hr0

/-- The sale-line loop decrements the (first) row of each item id by exactly
the total quantity requested for that id. -/
theorem processSaleItems_qty :
    ∀ (items : List SaleItem) (inv : List InventoryItem) (tc td : Rat)
      (inv' : List InventoryItem) (tc' td' : Rat) (out : List SaleItem) (j : Int),
    processSaleItems inv tc td items = .ok (inv', tc', td', out) →
    qtyInInv inv' j = qtyInInv inv j - requestedTotal j items := by
  intro items
  induction items with
  | nil =>
    intro inv tc td inv' tc' td' out j hok
    simp only [processSaleItems, Except.ok.injEq, Prod.mk.injEq] at hok
    obtain ⟨h1, -, -, -⟩ := hok
    subst h1
    simp [requestedTotal]
  | cons it rest ih =>
    intro inv tc td inv' tc' td' out j hok
    simp only [processSaleItems] at hok
    cases heff : effItemId it with
    | none =>
      rw [heff] at hok
      cases hrec : processSaleItems inv tc td rest with
      | error e => rw [hrec] at hok; exact absurd hok (by simp)
      | ok w =>
        obtain ⟨i1, c1, d1, o1⟩ := w
        rw [hrec] at hok
        simp only [Except.ok.injEq, Prod.mk.injEq] at hok
        obtain ⟨h1, -, -, -⟩ := hok
        subst h1
        rw [requestedTotal_cons, heff]
        rw [ih inv tc td _ _ _ _ j hrec]
        simp
    | some i =>
      rw [heff] at hok
      simp only [] at hok
      cases hfind : inv.find? (fun r => r.id == i) with
      | none => rw [hfind] at hok; exact absurd hok (by simp)
      | some inventoryItem =>
        rw [hfind] at hok
        simp only [] at hok
        by_cases hlt : inventoryItem.quantity < it.quantity
        · rw [if_pos hlt] at hok; exact absurd hok (by simp)
        · rw [if_neg hlt] at hok
          cases hrec : processSaleItems
              (inv.map fun r => if r.id == i then
                { r with quantity := inventoryItem.quantity - it.quantity } else r)
              (tc + inventoryItem.cost_price * it.quantity)
              (td + (inventoryItem.price
                - (match it.actualPrice with | some p => p | none => it.price)) * it.quantity)
              rest with
          | error e => rw [hrec] at hok; exact absurd hok (by simp)
          | ok w =>
            obtain ⟨i1, c1, d1, o1⟩ := w
            rw [hrec] at hok
            simp only [Except.ok.injEq, Prod.mk.injEq] at hok
            obtain ⟨h1, -, -, -⟩ := hok
            subst h1
            have hstep : qtyInInv (inv.map fun r => if r.id == i then
                { r with quantity := inventoryItem.quantity - it.quantity } else r) j
                = qtyInInv inv j - (if (some i == some j) then it.quantity else 0) := by
              simp only [qtyInInv]
              rw [find?_id_map]
              cases hfj : inv.find? (fun r => r.id == j) with
              | none =>
                have hij : ¬ i = j := by
                  intro h
                  subst h
                  rw [hfind] at hfj
                  exact absurd hfj (by simp)
                simp [hfj, hij]
              | some R =>
                have hRj : R.id = j := by simpa using List.find?_some hfj
                by_cases hij : i = j
                · subst hij
                  have hR : R = inventoryItem := by
                    rw [hfind] at hfj
                    exact (Option.some.inj hfj).symm
                  subst hR
                  simp [hfj, hRj]
                · have hRi : ¬ R.id = i := by
                    rw [hRj]
                    exact fun h => hij h.symm
                  simp [hfj, hRi, hij]
            rw [ih _ _ _ i1 c1 d1 o1 j hrec, hstep, requestedTotal_cons, heff]
            ring

/-- Structure of the committed state of a successful sale transaction. -/
theorem createSaleTx_ok_state (s : DBState) (r : SaleRequest) (res : SaleResult) (s' : DBState)
    (h : createSaleTx s r = .ok (res, s')) :
    ∃ tc td out, processSaleItems s.inventory 0 0 r.items = .ok (s'.inventory, tc, td, out)
      ∧ s'.sales = (s.sales ++ [newSaleRow s r tc td out]).map
          (fun sr => if sr.id == s.nextSaleId
            then { sr with invoice_number := invoiceNumberOf s.nextSaleId } else sr)
      ∧ res = { id := s.nextSaleId, invoiceNumber := invoiceNumberOf s.nextSaleId,
                totalCost := round2 tc, totalDiscount := round2 td,
                profit := round2 (r.total - tc) }
      ∧ s'.returns = s.returns ∧ s'.returned_items = s.returned_items
      ∧ s'.customers = s.customers ∧ s'.nextSaleId = s.nextSaleId + 1 := by
  unfold createSaleTx at h
  cases hps : processSaleItems s.inventory 0 0 r.items with
  | error e => rw [hps] at h; exact absurd h (by simp)
  | ok w =>
    obtain ⟨inv', tc, td, out⟩ := w
    rw [hps] at h
    simp only [Except.ok.injEq, Prod.mk.injEq] at h
    obtain ⟨hres, hs'⟩ := h
    subst hs'
    exact ⟨tc, td, out, rfl, rfl, hres.symm, rfl, rfl, rfl, rfl⟩

/-- A failed sale call rolls back: the returned state is the pre-call state. -/
theorem createSaleApp_error_state (s : DBState) (r : SaleRequest) (e : SaleError)
    (s' : DBState) (h : createSaleApp s r = (.error e, s')) : s' = s := by
  unfold createSaleApp at h
  cases htx : createSaleTx s r with
  | error e' =>
    rw [htx] at h
    injection h with h1 h2
    exact h2.symm
  | ok v => obtain ⟨res, s₂⟩ := v; rw [htx] at h; exact absurd h (by simp)

/-- A sale call (committed or rolled back) keeps inventory non-negative. -/
theorem applySale_nonneg (s : DBState) (r : SaleRequest)
    (h0 : ∀ x ∈ s.inventory, 0 ≤ x.quantity) :
    ∀ x ∈ (applySale s r).inventory, 0 ≤ x.quantity := by
  unfold applySale createSaleApp
  cases htx : createSaleTx s r with
  | error e => exact h0
  | ok v =>
    obtain ⟨res, s₁⟩ := v
    obtain ⟨tc, td, out, hps, -⟩ := createSaleTx_ok_state s r res s₁ htx
    exact processSaleItems_nonneg r.items s.inventory 0 0 _ tc td out h0 hps

theorem runSales_nonneg (reqs : List SaleRequest) :
    ∀ s : DBState, (∀ x ∈ s.inventory, 0 ≤ x.quantity) →
    ∀ x ∈ (runSales s reqs).inventory, 0 ≤ x.quantity := by
  induction reqs with
  | nil => intro s h0; exact h0
  | cons r rs ih => intro s h0; exact ih (applySale s r) (applySale_nonneg s r h0)

theorem qtyOf_nonneg (s : DBState) (j : Int)
    (h0 : ∀ x ∈ s.inventory, 0 ≤ x.quantity) : 0 ≤ qtyOf s j := by
  unfold qtyOf qtyInInv
  cases hf : s.inventory.find? (fun x => x.id == j) with
  | none => simp
  | some R => simpa using h0 R (List.mem_of_find?_eq_some hf)

theorem saleDeductions_telescope (j : Int) (reqs : List SaleRequest) :
    ∀ s : DBState, saleDeductions j s reqs = qtyOf s j - qtyOf (runSales s reqs) j := by
  induction reqs with
  | nil => intro s; simp [saleDeductions, runSales]
  | cons r rs ih =>
    intro s
    simp only [saleDeductions, runSales]
    rw [ih (applySale s r)]
    ring

/-- A successful sale call deducts from each item exactly the quantity its
processed lines requested. -/
theorem createSaleApp_deducts (s₀ : DBState) (r : SaleRequest) (res : SaleResult)
    (s₁ : DBState) (j : Int) (h : createSaleApp s₀ r = (.ok res, s₁)) :
    qtyOf s₀ j - qtyOf s₁ j = requestedTotal j r.items := by
  unfold createSaleApp at h
  cases htx : createSaleTx s₀ r with
  | error e => rw [htx] at h; exact absurd h (by simp)
  | ok v =>
    obtain ⟨res', s'⟩ := v
    rw [htx] at h
    simp only [Prod.mk.injEq, Except.ok.injEq] at h
    obtain ⟨-, hs⟩ := h
    subst hs
    obtain ⟨tc, td, out, hps, -⟩ := createSaleTx_ok_state s₀ r res' _ htx
    have hq := processSaleItems_qty r.items s₀.inventory 0 0 _ tc td out j hps
    unfold qtyOf
    rw [hq]
    ring

/-- C1: starting from non-negative stock, over any sequence of `createSale`
calls every stored quantity stays non-negative, the summed deductions equal
the total stock decrease (hence never exceed the initial quantity), and each
successful call deducts exactly the quantities its lines requested. -/
theorem c1_stock_never_negative (s : DBState) (reqs : List SaleRequest) (j : Int)
    (h0 : ∀ x ∈ s.inventory, 0 ≤ x.quantity) :
    (∀ x ∈ (runSales s reqs).inventory, 0 ≤ x.quantity)
    ∧ 0 ≤ qtyOf (runSales s reqs) j
    ∧ saleDeductions j s reqs = qtyOf s j - qtyOf (runSales s reqs) j
    ∧ saleDeductions j s reqs ≤ qtyOf s j
    ∧ (∀ (s₀ : DBState) (r : SaleRequest) (res : SaleResult) (s₁ : DBState),
        createSaleApp s₀ r = (.ok res, s₁) →
        qtyOf s₀ j - qtyOf s₁ j = requestedTotal j r.items) := by
  have hrun := runSales_nonneg reqs s h0
  have hq := qtyOf_nonneg (runSales s reqs) j hrun
  have htel := saleDeductions_telescope j reqs s
  refine ⟨hrun, hq, htel, ?_, fun s₀ r res s₁ h => createSaleApp_deducts s₀ r res s₁ j h⟩
  rw [htel]
  linarith

/-- Witness for C1: the scenario inventory (quantity 7) and a sale of 3. -/
theorem c1_stock_never_negative_witness :
    (∀ x ∈ wState.inventory, 0 ≤ x.quantity)
    ∧ ((∀ x ∈ (runSales wState
          [{ items := [{ itemId := some 1, quantity := 3, price := 150 }],
             total := 450 }]).inventory, 0 ≤ x.quantity)
      ∧ 0 ≤ qtyOf (runSales wState
          [{ items := [{ itemId := some 1, quantity := 3, price := 150 }],
             total := 450 }]) 1
      ∧ saleDeductions 1 wState
          [{ items := [{ itemId := some 1, quantity := 3, price := 150 }],
             total := 450 }]
          = qtyOf wState 1 - qtyOf (runSales wState
              [{ items := [{ itemId := some 1, quantity := 3, price := 150 }],
                 total := 450 }]) 1
      ∧ saleDeductions 1 wState
          [{ items := [{ itemId := some 1, quantity := 3, price := 150 }],
             total := 450 }] ≤ qtyOf wState 1
      ∧ (∀ (s₀ : DBState) (r : SaleRequest) (res : SaleResult) (s₁ : DBState),
          createSaleApp s₀ r = (.ok res, s₁) →
          qtyOf s₀ 1 - qtyOf s₁ 1 = requestedTotal 1 r.items)) :=
  ⟨by decide,
   c1_stock_never_negative wState
     [{ items := [{ itemId := some 1, quantity := 3, price := 150 }], total := 450 }]
     1 (by decide)⟩

/-- Badness of a line is preserved by the decrement a processed line applies
(stock only shrinks when requested quantities are non-negative). -/
theorem lineBadB_after_update (inv : List InventoryItem) (it : SaleItem) (itemId : Int)
    (F : InventoryItem) (dq : Rat)
    (hF : (inv.find? fun r => r.id == itemId) = some F) (hdq : 0 ≤ dq)
    (hbad : lineBadB inv it = true) :
    lineBadB (inv.map fun r => if r.id == itemId then
      { r with quantity := F.quantity - dq } else r) it = true := by
  cases heff : effItemId it with
  | none => simp [lineBadB, lineMissingB, lineShortB, heff] at hbad
  | some i =>
    simp only [lineBadB, lineMissingB, lineShortB, heff] at hbad ⊢
    rw [find?_id_map]
    cases hfi : inv.find? (fun r => r.id == i) with
    | none => simp
    | some R =>
      rw [hfi] at hbad
      simp only [Option.isNone_some, Bool.false_or, decide_eq_true_eq] at hbad
      simp only [Option.map_some', Option.isNone_some, Bool.false_or, decide_eq_true_eq]
      by_cases hRid : R.id = itemId
      · have hRi : R.id = i := by simpa using List.find?_some hfi
        have hii : itemId = i := by rw [← hRid, hRi]
        subst hii
        have hFR : F = R := by
          rw [hF] at hfi
          exact Option.some.inj hfi
        subst hFR
        rw [if_pos (by simp [hRid])]
        simp only
        linarith
      · rw [if_neg (by simpa using hRid)]
        exact hbad

/-- A bad line anywhere in the request makes the whole loop throw. -/
theorem processSaleItems_error_of_bad :
    ∀ (items : List SaleItem) (inv : List InventoryItem) (tc td : Rat),
    (∀ l ∈ items, 0 ≤ l.quantity) →
    (∃ it ∈ items, lineBadB inv it = true) →
    ∃ e, processSaleItems inv tc td items = .error e := by
  intro items
  induction items with
  | nil =>
    intro inv tc td hq hbad
    obtain ⟨b, hbmem, -⟩ := hbad
    exact absurd hbmem (List.not_mem_nil b)
  | cons it rest ih =>
    intro inv tc td hq hbad
    obtain ⟨b, hbmem, hb⟩ := hbad
    cases heff : effItemId it with
    | none =>
      have hbrest : b ∈ rest := by
        rcases List.mem_cons.mp hbmem with h | h
        · subst h; simp [lineBadB, lineMissingB, lineShortB, heff] at hb
        · exact h
      obtain ⟨e, he⟩ :=
        ih inv tc td (fun l hl => hq l (List.mem_cons_of_mem _ hl)) ⟨b, hbrest, hb⟩
      refine ⟨e, ?_⟩
      simp only [processSaleItems]
      simp only [heff, he]
    | some i =>
      cases hfind : inv.find? (fun r => r.id == i) with
      | none =>
        refine ⟨.itemNotFound i, ?_⟩
        simp only [processSaleItems]
        simp only [heff]
        simp only [hfind]
      | some F =>
        by_cases hlt : F.quantity < it.quantity
        · refine ⟨.insufficientStock F.name F.quantity it.quantity, ?_⟩
          simp only [processSaleItems]
          simp only [heff]
          simp only [hfind]
          rw [if_pos hlt]
        · have hbrest : b ∈ rest := by
            rcases List.mem_cons.mp hbmem with h | h
            · subst h
              simp [lineBadB, lineMissingB, lineShortB, heff, hfind, hlt] at hb
            · exact h
          have hb' := lineBadB_after_update inv b i F it.quantity hfind
            (hq it (List.mem_cons_self it rest)) hb
          obtain ⟨e, he⟩ := ih _ (tc + F.cost_price * it.quantity)
            (td + (F.price - (match it.actualPrice with | some p => p | none => it.price))
              * it.quantity)
            (fun l hl => hq l (List.mem_cons_of_mem _ hl)) ⟨b, hbrest, hb'⟩
          refine ⟨e, ?_⟩
          simp only [processSaleItems]
          simp only [heff]
          simp only [hfind]
          rw [if_neg hlt]
          simp only [he]

/-- When every processed line's item exists, the loop never throws
`ItemNotFound`. -/
theorem processSaleItems_no_notFound :
    ∀ (items : List SaleItem) (inv : List InventoryItem) (tc td : Rat),
    (∀ it ∈ items, lineMissingB inv it = false) →
    ∀ i, processSaleItems inv tc td items ≠ .error (.itemNotFound i) := by
  intro items
  induction items with
  | nil =>
    intro inv tc td hex i h
    simp [processSaleItems] at h
  | cons it rest ih =>
    intro inv tc td hex i h
    simp only [processSaleItems] at h
    cases heff : effItemId it with
    | none =>
      rw [heff] at h
      cases hrec : processSaleItems inv tc td rest with
      | error e =>
        rw [hrec] at h
        simp only [Except.error.injEq] at h
        exact ih inv tc td (fun l hl => hex l (List.mem_cons_of_mem _ hl)) i (h ▸ hrec)
      | ok w => obtain ⟨i1, c1, d1, o1⟩ := w; rw [hrec] at h; exact absurd h (by simp)
    | some i0 =>
      rw [heff] at h
      simp only [] at h
      cases hfind : inv.find? (fun r => r.id == i0) with
      | none =>
        have := hex it (List.mem_cons_self it rest)
        simp [lineMissingB, heff, hfind] at this
      | some F =>
        rw [hfind] at h
        simp only [] at h
        by_cases hlt : F.quantity < it.quantity
        · rw [if_pos hlt] at h
          exact absurd h (by simp)
        · rw [if_neg hlt] at h
          cases hrec : processSaleItems
              (inv.map fun r => if r.id == i0 then
                { r with quantity := F.quantity - it.quantity } else r)
              (tc + F.cost_price * it.quantity)
              (td + (F.price
                - (match it.actualPrice with | some p => p | none => it.price)) * it.quantity)
              rest with
          | error e =>
            rw [hrec] at h
            simp only [Except.error.injEq] at h
            have hex1 : ∀ l ∈ rest, lineMissingB (inv.map fun r => if r.id == i0 then
                { r with quantity := F.quantity - it.quantity } else r) l = false := by
              intro l hl
              have := hex l (List.mem_cons_of_mem _ hl)
              cases hefl : effItemId l with
              | none => simp [lineMissingB, hefl]
              | some k =>
                simp only [lineMissingB, hefl] at this ⊢
                rw [find?_id_map]
                simpa using this
            exact ih _ _ _ hex1 i (h ▸ hrec)
          | ok w => obtain ⟨i1, c1, d1, o1⟩ := w; rw [hrec] at h; exact absurd h (by simp)

/-- When some line's item is missing and stock is ample for every existing
row, the loop throws `ItemNotFound`. -/
theorem processSaleItems_notFound_of_missing :
    ∀ (items : List SaleItem) (inv : List InventoryItem) (tc td : Rat),
    (∀ l ∈ items, 0 ≤ l.quantity) →
    (∀ R ∈ inv, requestedTotal R.id items ≤ R.quantity) →
    (∃ it ∈ items, lineMissingB inv it = true) →
    ∃ i, processSaleItems inv tc td items = .error (.itemNotFound i) := by
  intro items
  induction items with
  | nil =>
    intro inv tc td hq hcap hbad
    obtain ⟨b, hbmem, -⟩ := hbad
    exact absurd hbmem (List.not_mem_nil b)
  | cons it rest ih =>
    intro inv tc td hq hcap hbad
    obtain ⟨b, hbmem, hb⟩ := hbad
    cases heff : effItemId it with
    | none =>
      have hbrest : b ∈ rest := by
        rcases List.mem_cons.mp hbmem with h | h
        · subst h; simp [lineMissingB, heff] at hb
        · exact h
      have hcap1 : ∀ R ∈ inv, requestedTotal R.id rest ≤ R.quantity := by
        intro R hR
        have := hcap R hR
        rwa [requestedTotal_cons, heff, if_neg (by simp), zero_add] at this
      obtain ⟨i, he⟩ := ih inv tc td
        (fun l hl => hq l (List.mem_cons_of_mem _ hl)) hcap1 ⟨b, hbrest, hb⟩
      refine ⟨i, ?_⟩
      simp only [processSaleItems]
      simp only [heff, he]
    | some i0 =>
      cases hfind : inv.find? (fun r => r.id == i0) with
      | none =>
        refine ⟨i0, ?_⟩
        simp only [processSaleItems]
        simp only [heff]
        simp only [hfind]
      | some F =>
        have hFi : F.id = i0 := by simpa using List.find?_some hfind
        have hFmem := List.mem_of_find?_eq_some hfind
        have hcapF := hcap F hFmem
        rw [hFi] at hcapF
        have hrt0 : 0 ≤ requestedTotal i0 rest :=
          requestedTotal_nonneg i0 rest (fun l hl => hq l (List.mem_cons_of_mem _ hl))
        have hcons : requestedTotal i0 (it :: rest)
            = it.quantity + requestedTotal i0 rest := by
          rw [requestedTotal_cons, heff, if_pos (by simp)]
        have hle : it.quantity ≤ F.quantity := by
          rw [hcons] at hcapF
          linarith
        have hnlt : ¬ F.quantity < it.quantity := not_lt.mpr hle
        have hbrest : b ∈ rest := by
          rcases List.mem_cons.mp hbmem with h | h
          · subst h; simp [lineMissingB, heff, hfind] at hb
          · exact h
        have hcap1 : ∀ R ∈ (inv.map fun r => if r.id == i0 then
            { r with quantity := F.quantity - it.quantity } else r),
            requestedTotal R.id rest ≤ R.quantity := by
          intro R' hR'
          rw [List.mem_map] at hR'
          obtain ⟨R0, hR0, rfl⟩ := hR'
          by_cases hid : R0.id = i0
          · rw [if_pos (by simpa using hid)]
            show requestedTotal R0.id rest ≤ F.quantity - it.quantity
            rw [hid]
            have h2 := hcapF
            rw [hcons] at h2
            linarith
          · rw [if_neg (by simpa using hid)]
            have := hcap R0 hR0
            rwa [requestedTotal_cons, heff,
              if_neg (by simpa using fun h : i0 = R0.id => hid h.symm), zero_add] at this
        have hbmiss1 : lineMissingB (inv.map fun r => if r.id == i0 then
            { r with quantity := F.quantity - it.quantity } else r) b = true := by
          cases hefb : effItemId b with
          | none => simp [lineMissingB, hefb] at hb
          | some k =>
            simp only [lineMissingB, hefb] at hb ⊢
            rw [find?_id_map]
            simpa using hb
        obtain ⟨i2, he⟩ := ih _ (tc + F.cost_price * it.quantity)
          (td + (F.price - (match it.actualPrice with | some p => p | none => it.price))
            * it.quantity)
          (fun l hl => hq l (List.mem_cons_of_mem _ hl)) hcap1 ⟨b, hbrest, hbmiss1⟩
        refine ⟨i2, ?_⟩
        simp only [processSaleItems]
        simp only [heff]
        simp only [hfind]
        rw [if_neg hnlt]
        simp only [he]

/-- A loop error becomes a rolled-back `createSale` failure with the same
error and the pre-call state. -/
theorem createSaleApp_of_processError (s : DBState) (r : SaleRequest) (e : SaleError)
    (h : processSaleItems s.inventory 0 0 r.items = .error e) :
    createSaleApp s r = (.error e, s) := by
  unfold createSaleApp createSaleTx
  rw [h]

/-- C3: a sale call with a bad line fails atomically.  (1) any failure
returns exactly the pre-call state (so no inventory decrement and no sale
row survives); (2) a line referencing a missing item or exceeding its stock
makes the call fail with the state unchanged; (3) when every referenced item
exists the failure is `InsufficientStock`; (4) when a referenced item is
missing and stock never binds the failure is `ItemNotFound`. -/
theorem c3_failure_atomicity (s : DBState) (r : SaleRequest) :
    (∀ (e : SaleError) (s' : DBState), createSaleApp s r = (.error e, s') → s' = s)
    ∧ ((∀ l ∈ r.items, 0 ≤ l.quantity) →
       (∃ it ∈ r.items, lineBadB s.inventory it = true) →
        ∃ e, createSaleApp s r = (.error e, s))
    ∧ ((∀ l ∈ r.items, 0 ≤ l.quantity) →
       (∀ it ∈ r.items, lineMissingB s.inventory it = false) →
       (∃ it ∈ r.items, lineShortB s.inventory it = true) →
        ∃ nm av rq, createSaleApp s r = (.error (.insufficientStock nm av rq), s))
    ∧ ((∀ l ∈ r.items, 0 ≤ l.quantity) →
       (∀ R ∈ s.inventory, requestedTotal R.id r.items ≤ R.quantity) →
       (∃ it ∈ r.items, lineMissingB s.inventory it = true) →
        ∃ i, createSaleApp s r = (.error (.itemNotFound i), s)) := by
  refine ⟨fun e s' h => createSaleApp_error_state s r e s' h, ?_, ?_, ?_⟩
  · intro hq hbad
    obtain ⟨e, he⟩ := processSaleItems_error_of_bad r.items s.inventory 0 0 hq hbad
    exact ⟨e, createSaleApp_of_processError s r e he⟩
  · intro hq hex hshort
    obtain ⟨b, hbmem, hb⟩ := hshort
    obtain ⟨e, he⟩ := processSaleItems_error_of_bad r.items s.inventory 0 0 hq
      ⟨b, hbmem, by simp [lineBadB, hb]⟩
    cases e with
    | itemNotFound i =>
      exact absurd he (processSaleItems_no_notFound r.items s.inventory 0 0 hex i)
    | insufficientStock nm av rq =>
      exact ⟨nm, av, rq, createSaleApp_of_processError s r _ he⟩
  · intro hq hcap hmiss
    obtain ⟨i, he⟩ :=
      processSaleItems_notFound_of_missing r.items s.inventory 0 0 hq hcap hmiss
    exact ⟨i, createSaleApp_of_processError s r _ he⟩

/-- Witness for C3: on the scenario state, `wReq20` (20 of item 1, stock 7)
fails with `InsufficientStock` leaving the state untouched; `wReq99`
(missing item 99) fails with `ItemNotFound` leaving the state untouched, and
the rollback part applied to that failure confirms the state equality. -/
theorem c3_failure_atomicity_witness :
    ((∀ l ∈ wReq20.items, 0 ≤ l.quantity)
      ∧ (∀ it ∈ wReq20.items, lineMissingB wState.inventory it = false)
      ∧ (∃ it ∈ wReq20.items, lineShortB wState.inventory it = true)
      ∧ (∀ l ∈ wReq99.items, 0 ≤ l.quantity)
      ∧ (∀ R ∈ wState.inventory, requestedTotal R.id wReq99.items ≤ R.quantity)
      ∧ (∃ it ∈ wReq99.items, lineMissingB wState.inventory it = true))
    ∧ (∃ nm av rq, createSaleApp wState wReq20
        = (.error (.insufficientStock nm av rq), wState))
    ∧ (∃ i, createSaleApp wState wReq99 = (.error (.itemNotFound i), wState))
    ∧ wState = wState :=
  ⟨⟨by decide, by decide, by decide, by decide, by decide, by decide⟩,
   (c3_failure_atomicity wState wReq20).2.2.1 (by decide) (by decide) (by decide),
   (c3_failure_atomicity wState wReq99).2.2.2 (by decide) (by decide) (by decide),
   (c3_failure_atomicity wState wReq99).1 (.itemNotFound 99) wState (by rfl)⟩

/-- The stored line list of a successful loop has one entry per submitted
line (processed or skipped). -/
theorem processSaleItems_length :
    ∀ (items : List SaleItem) (inv : List InventoryItem) (tc td : Rat)
      (inv' : List InventoryItem) (tc' td' : Rat) (out : List SaleItem),
    processSaleItems inv tc td items = .ok (inv', tc', td', out) →
    out.length = items.length := by
  intro items
  induction items with
  | nil =>
    intro inv tc td inv' tc' td' out hok
    simp only [processSaleItems, Except.ok.injEq, Prod.mk.injEq] at hok
    obtain ⟨-, -, -, h4⟩ := hok
    subst h4
    rfl
  | cons it rest ih =>
    intro inv tc td inv' tc' td' out hok
    simp only [processSaleItems] at hok
    cases heff : effItemId it with
    | none =>
      rw [heff] at hok
      cases hrec : processSaleItems inv tc td rest with
      | error e => rw [hrec] at hok; exact absurd hok (by simp)
      | ok w =>
        obtain ⟨i1, c1, d1, o1⟩ := w
        rw [hrec] at hok
        simp only [Except.ok.injEq, Prod.mk.injEq] at hok
        obtain ⟨-, -, -, h4⟩ := hok
        subst h4
        simp [ih inv tc td _ _ _ _ hrec]
    | some i0 =>
      rw [heff] at hok
      simp only [] at hok
      cases hfind : inv.find? (fun r => r.id == i0) with
      | none => rw [hfind] at hok; exact absurd hok (by simp)
      | some F =>
        rw [hfind] at hok
        simp only [] at hok
        by_cases hlt : F.quantity < it.quantity
        · rw [if_pos hlt] at hok; exact absurd hok (by simp)
        · rw [if_neg hlt] at hok
          cases hrec : processSaleItems
              (inv.map fun r => if r.id == i0 then
                { r with quantity := F.quantity - it.quantity } else r)
              (tc + F.cost_price * it.quantity)
              (td + (F.price
                - (match it.actualPrice with | some p => p | none => it.price)) * it.quantity)
              rest with
          | error e => rw [hrec] at hok; exact absurd hok (by simp)
          | ok w =>
            obtain ⟨i1, c1, d1, o1⟩ := w
            rw [hrec] at hok
            simp only [Except.ok.injEq, Prod.mk.injEq] at hok
            obtain ⟨-, -, -, h4⟩ := hok
            subst h4
            simp [ih _ _ _ _ _ _ _ hrec]

/-- A line whose id guard is falsy contributes nothing to the loop: the
result is the result on the remaining lines, with the line spliced back
unchanged into the stored list at its position. -/
theorem processSaleItems_skip (l : SaleItem) (hl : effItemId l = none) :
    ∀ (pre post : List SaleItem) (inv : List InventoryItem) (tc td : Rat),
    processSaleItems inv tc td (pre ++ l :: post)
      = match processSaleItems inv tc td (pre ++ post) with
        | .error e => .error e
        | .ok (inv', tc', td', out) => .ok (inv', tc', td', out.insertIdx pre.length l) := by
  intro pre
  induction pre with
  | nil =>
    intro post inv tc td
    simp only [List.nil_append, List.length_nil]
    simp only [processSaleItems]
    simp only [hl]
    cases hrec : processSaleItems inv tc td post with
    | error e => rfl
    | ok w => obtain ⟨i1, c1, d1, o1⟩ := w; rfl
  | cons h pre ih =>
    intro post inv tc td
    simp only [List.cons_append, List.length_cons]
    simp only [processSaleItems]
    cases hef : effItemId h with
    | none =>
      simp only [hef]
      rw [ih post inv tc td]
      cases hrec : processSaleItems inv tc td (pre ++ post) with
      | error e => rfl
      | ok w => obtain ⟨i1, c1, d1, o1⟩ := w; rfl
    | some i0 =>
      simp only [hef]
      cases hfind : inv.find? (fun rw => rw.id == i0) with
      | none => rfl
      | some F =>
        simp only []
        by_cases hlt : F.quantity < h.quantity
        · rw [if_pos hlt]
          rw [if_pos hlt]
        · rw [if_neg hlt]
          rw [if_neg hlt]
          rw [ih post _ _ _]
          cases hrec : processSaleItems
              (inv.map fun rw => if rw.id == i0 then
                { rw with quantity := F.quantity - h.quantity } else rw)
              (tc + F.cost_price * h.quantity)
              (td + (F.price
                - (match h.actualPrice with | some p => p | none => h.price)) * h.quantity)
              (pre ++ post) with
          | error e => rfl
          | ok w => obtain ⟨i1, c1, d1, o1⟩ := w; rfl

/-- C10: a submitted line whose `itemId` and `id` are both falsy is skipped
entirely — the call returns the same result and the same inventory as the
call without that line (no existence/stock check, no decrement, no
contribution to the totals), yet on success the line is stored unchanged at
its position in the created sale row's item list. -/
theorem c10_falsy_line_skipped (s : DBState) (r : SaleRequest) (pre post : List SaleItem)
    (l : SaleItem) (hl : effItemId l = none) (hr : r.items = pre ++ l :: post) :
    ((createSaleApp s r).1 = (createSaleApp s { r with items := pre ++ post }).1)
    ∧ ((createSaleApp s r).2.inventory
        = (createSaleApp s { r with items := pre ++ post }).2.inventory)
    ∧ (∀ (res : SaleResult) (s' : DBState), createSaleApp s r = (.ok res, s') →
        (∀ row ∈ s.sales, row.id ≠ s.nextSaleId) →
        ∃ row, s'.sales = s.sales ++ [row] ∧ row.items[pre.length]? = some l) := by
  have hskip := processSaleItems_skip l hl pre post s.inventory 0 0
  have hitems : ({ r with items := pre ++ post } : SaleRequest).items = pre ++ post := rfl
  cases hrec : processSaleItems s.inventory 0 0 (pre ++ post) with
  | error e =>
    rw [hrec] at hskip
    have happ : createSaleApp s r = (.error e, s) :=
      createSaleApp_of_processError s r e (by rw [hr]; exact hskip)
    have happ' : createSaleApp s { r with items := pre ++ post } = (.error e, s) :=
      createSaleApp_of_processError s _ e (by rw [hitems]; exact hrec)
    rw [happ, happ']
    exact ⟨rfl, rfl, fun res s' h => absurd h (by simp)⟩
  | ok w =>
    obtain ⟨inv', tc, td, out⟩ := w
    rw [hrec] at hskip
    have happ : createSaleApp s r
        = (.ok { id := s.nextSaleId, invoiceNumber := invoiceNumberOf s.nextSaleId,
                 totalCost := round2 tc, totalDiscount := round2 td,
                 profit := round2 (r.total - tc) },
           { s with inventory := inv',
                    sales := (s.sales
                        ++ [newSaleRow s r tc td (out.insertIdx pre.length l)]).map
                      (fun sr => if sr.id == s.nextSaleId
                        then { sr with invoice_number := invoiceNumberOf s.nextSaleId }
                        else sr),
                    nextSaleId := s.nextSaleId + 1 }) := by
      unfold createSaleApp createSaleTx
      rw [hr, hskip]
      rfl
    have happ' : createSaleApp s { r with items := pre ++ post }
        = (.ok { id := s.nextSaleId, invoiceNumber := invoiceNumberOf s.nextSaleId,
                 totalCost := round2 tc, totalDiscount := round2 td,
                 profit := round2 (r.total - tc) },
           { s with inventory := inv',
                    sales := (s.sales ++ [newSaleRow s r tc td out]).map
                      (fun sr => if sr.id == s.nextSaleId
                        then { sr with invoice_number := invoiceNumberOf s.nextSaleId }
                        else sr),
                    nextSaleId := s.nextSaleId + 1 }) := by
      unfold createSaleApp createSaleTx
      rw [hitems, hrec]
      rfl
    refine ⟨by rw [happ, happ'], by rw [happ, happ'], ?_⟩
    intro res s' h hfresh
    rw [happ] at h
    simp only [Prod.mk.injEq, Except.ok.injEq] at h
    obtain ⟨-, hs⟩ := h
    subst hs
    refine ⟨{ newSaleRow s r tc td (out.insertIdx pre.length l) with
        invoice_number := invoiceNumberOf s.nextSaleId }, ?_, ?_⟩
    · show ((s.sales ++ [newSaleRow s r tc td (out.insertIdx pre.length l)]).map
          (fun sr => if sr.id == s.nextSaleId
            then { sr with invoice_number := invoiceNumberOf s.nextSaleId }
            else sr)) = _
      rw [List.map_append]
      have hmap : s.sales.map (fun sr => if sr.id == s.nextSaleId
          then { sr with invoice_number := invoiceNumberOf s.nextSaleId }
          else sr) = s.sales := by
        conv_rhs => rw [← List.map_id s.sales]
        apply List.map_congr_left
        intro a ha
        rw [if_neg (by simpa using hfresh a ha)]
        rfl
      rw [hmap]
      simp only [List.map_cons, List.map_nil]
      rw [if_pos (by simp [newSaleRow])]
    · show (out.insertIdx pre.length l)[pre.length]? = some l
      have hlen : out.length = (pre ++ post).length :=
        processSaleItems_length (pre ++ post) s.inventory 0 0 inv' tc td out hrec
      have hle : pre.length ≤ out.length := by
        rw [hlen, List.length_append]
        exact Nat.le_add_right _ _
      have hlt : pre.length < (out.insertIdx pre.length l).length := by
        rw [List.length_insertIdx pre.length out hle]
        exact Nat.lt_succ_of_le hle
      rw [List.getElem?_eq_getElem hlt]
      congr 1
      exact List.getElem_insertIdx_self out l pre.length hle

/-- Witness for C10 on the scenario state. -/
theorem c10_falsy_line_skipped_witness :
    (effItemId wSkipLine = none ∧ wReqSkip.items = [wGoodLine] ++ wSkipLine :: [])
    ∧ (((createSaleApp wState wReqSkip).1
          = (createSaleApp wState { wReqSkip with items := [wGoodLine] ++ [] }).1)
      ∧ ((createSaleApp wState wReqSkip).2.inventory
          = (createSaleApp wState { wReqSkip with items := [wGoodLine] ++ [] }).2.inventory)
      ∧ (∀ (res : SaleResult) (s' : DBState),
          createSaleApp wState wReqSkip = (.ok res, s') →
          (∀ row ∈ wState.sales, row.id ≠ wState.nextSaleId) →
          ∃ row, s'.sales = wState.sales ++ [row]
            ∧ row.items[(List.length [wGoodLine])]? = some wSkipLine)) :=
  ⟨⟨rfl, rfl⟩, c10_falsy_line_skipped wState wReqSkip [wGoodLine] [] wSkipLine rfl rfl⟩

